import Mathlib

/-
Verification of the embedded-gfx rasterizer and mesh/transform core.

This file gives a shallow embedding of the two core source files
(`src/draw.rs` and `src/mesh.rs`) of the embedded-gfx crate, and settles a
list of claims about them.

Conventions of the embedding:
  * Rust `i32` values are modelled as `Int` (the inputs involved in the
    claims are far from the 32-bit boundary, so wrap-around is not modelled);
    Rust's truncating division and remainder (`/` and `%` on `i32`) are
    `Int.tdiv` and `Int.tmod`.
  * Rust `usize` values are modelled as `Nat`.
  * The `embedded_graphics_core` geometry types (`Point`, `Rectangle`,
    `Size`) are dependencies of the crate; the operations the core uses
    (`with_corners`, `bottom_right`, `intersection`, `is_zero_sized`,
    lexicographic `Ord::max` on `Point`) are embedded following that
    library's semantics.
  * The framebuffer target is modelled as its width/height plus a pure
    acceptance function on pixel batches; a Rust panic (an `unwrap` of a
    device error, or an out-of-bounds index into the fixed row buffer) is
    modelled as an aborting outcome, distinct from normal completion.
  * `f32`, quaternions and 4x4 matrices appearing in the mesh/transform
    state are modelled by abstract types together with the record of
    operations (`Ops`) the source code applies to them; the dirty-flag
    logic of `mesh.rs` only branches on (dis)equality tests of those
    values, which is what the claims are about.
-/

/- ===================== 2D points (embedded_graphics_core) ===================== -/

/-- A 2D integer screen coordinate, after `embedded_graphics_core::geometry::Point`
(with `i32` components). -/
structure Pt where
  x : Int
  y : Int
deriving DecidableEq, Repr

/-- Lexicographic strict order on points: the `Ord` instance derived for
`Point { x, y }` in `embedded_graphics_core` compares `x`, then `y`. -/
def Pt.lexLt (a b : Pt) : Bool :=
  decide (a.x < b.x ∨ (a.x = b.x ∧ a.y < b.y))

/-- `core::cmp::Ord::max`: returns `other` unless `other < self`. -/
def Pt.lexMax (a b : Pt) : Pt :=
  if Pt.lexLt b a then a else b

/- ===================== Rectangles (embedded_graphics_core) ===================== -/

/-- `embedded_graphics_core::primitives::Rectangle`: a top-left corner and a
(width, height) size in `u32`. -/
structure Rect where
  tlx : Int
  tly : Int
  w : Nat
  h : Nat
deriving DecidableEq, Repr

/-- `Rectangle::zero()`. -/
def Rect.zero : Rect := ⟨0, 0, 0, 0⟩

/-- `Rectangle::with_corners`: the rectangle spanning both corners inclusively. -/
def Rect.with_corners (c1 c2 : Pt) : Rect :=
  ⟨min c1.x c2.x, min c1.y c2.y, (c1.x - c2.x).natAbs + 1, (c1.y - c2.y).natAbs + 1⟩

/-- `Rectangle::bottom_right`: `None` for a zero-sized rectangle. -/
def Rect.bottom_right (r : Rect) : Option Pt :=
  if 0 < r.w ∧ 0 < r.h then some ⟨r.tlx + r.w - 1, r.tly + r.h - 1⟩ else none

/-- `Rectangle::intersection`: the overlap of two rectangles, `Rectangle::zero()`
when they do not overlap or either is zero-sized. -/
def Rect.intersection (r o : Rect) : Rect :=
  match o.bottom_right, r.bottom_right with
  | some obr, some sbr =>
    if r.tlx ≤ obr.x ∧ o.tlx ≤ sbr.x ∧ r.tly ≤ obr.y ∧ o.tly ≤ sbr.y then
      Rect.with_corners ⟨max r.tlx o.tlx, max r.tly o.tly⟩ ⟨min sbr.x obr.x, min sbr.y obr.y⟩
    else Rect.zero
  | _, _ => Rect.zero

/-- `Rectangle::is_zero_sized`: the size equals `Size::zero()`. -/
def Rect.is_zero_sized (r : Rect) : Bool :=
  decide (r.w = 0 ∧ r.h = 0)

/- ===================== draw.rs: constants and backface test ===================== -/

/-- `MAX_ROW_WIDTH` from `draw.rs` under the default feature set (no
`row_width_320` / `row_width_240` / `row_width_160` feature): 100. -/
def MAX_ROW_WIDTH : Nat := 100

/-- `is_backfacing` from `draw.rs`: the cross product of the edges
`(b - a) × (c - a)` is non-positive. -/
def is_backfacing (a b c : Pt) : Bool :=
  let dx1 := b.x - a.x
  let dy1 := b.y - a.y
  let dx2 := c.x - a.x
  let dy2 := c.y - a.y
  decide (dx1 * dy2 - dy1 * dx2 ≤ 0)

/- ===================== draw.rs: the scanline interpolator ===================== -/

/-- `struct Interpolator` from `draw.rs`. -/
structure Interpolator where
  x : Int
  dx : Int
  dy : Int
  error : Int
deriving DecidableEq, Repr

/-- `Interpolator::new`. -/
def Interpolator.new (p_start p_end : Pt) : Interpolator :=
  ⟨p_start.x, p_end.x - p_start.x, p_end.y - p_start.y, 0⟩

/-- `Interpolator::next` (Rust `i32` `/` and `%` are truncating division and
remainder, i.e. `Int.tdiv` / `Int.tmod`): returns the new `x` and the updated
interpolator state. -/
def Interpolator.next (s : Interpolator) : Int × Interpolator :=
  let x := s.x + Int.tdiv s.dx s.dy
  let e := s.error + Int.tmod s.dx s.dy
  if e ≥ s.dy then (x + 1, ⟨x + 1, s.dx, s.dy, e - s.dy⟩)
  else (x, ⟨x, s.dx, s.dy, e⟩)

/- ===================== draw.rs: scan conversion ===================== -/

/-- One scanline of a filled triangle: row `y`, clamped inclusive x-range
`[sx, ex]`. -/
structure Span where
  y : Int
  sx : Int
  ex : Int
deriving DecidableEq, Repr

/-- `i32::clamp(v, lo, hi)` (for `lo ≤ hi`). -/
def clampI (v lo hi : Int) : Int :=
  if v < lo then lo else if v > hi then hi else v

/-- The scanline loop shared by the two halves of `fill_triangle`: for `n`
scanlines starting at row `y`, step both interpolators, order the two
boundary x values, clamp them to `[min_x, max_x]`, and record the span. -/
def scanRows (a b : Interpolator) (y : Int) (n : Nat) (min_x max_x : Int) : List Span :=
  match n with
  | 0 => []
  | Nat.succ m =>
    let (ax, a2) := a.next
    let (bx, b2) := b.next
    let sx0 := if ax < bx then ax else bx
    let ex0 := if ax < bx then bx else ax
    ⟨y, clampI sx0 min_x max_x, clampI ex0 min_x max_x⟩ ::
      scanRows a2 b2 (y + 1) m min_x max_x

/-- `fill_triangle` from `draw.rs` as the list of spans it rasterizes, in
emission order: the signed-area guard, then the top half (`p1.y..p2.y`,
exclusive of `p2.y`) interpolating `p1→p2` against `p1→p3`, then the bottom
half (`p2.y..=p3.y`, inclusive) interpolating `p2→p3` against `p1→p3`. -/
def fill_triangle (p1 p2 p3 : Pt) (min_x max_x : Int) : List Span :=
  let area := (p2.x - p1.x) * (p3.y - p1.y) - (p2.y - p1.y) * (p3.x - p1.x)
  if area ≤ 0 then []
  else
    (if p2.y - p1.y > 0 then
        scanRows (Interpolator.new p1 p2) (Interpolator.new p1 p3) p1.y
          (p2.y - p1.y).toNat min_x max_x
      else []) ++
    (if p3.y - p2.y > 0 then
        scanRows (Interpolator.new p2 p3) (Interpolator.new p1 p3) p2.y
          (p3.y - p2.y + 1).toNat min_x max_x
      else [])

/- ===================== draw.rs: the ColoredTriangle path of draw ===================== -/

/-- `vertices.sort_unstable_by(|a, b| a.y.cmp(&b.y))` on the 3-element vertex
array: Rust's unstable sort runs an insertion sort at this length, which
preserves the order of y-ties. -/
def sort3 (v0 v1 v2 : Pt) : Pt × Pt × Pt :=
  let a := if v1.y < v0.y then v1 else v0
  let b := if v1.y < v0.y then v0 else v1
  if v2.y < a.y then (v2, a, b)
  else if v2.y < b.y then (a, v2, b)
  else (a, b, v2)

/-- The screen rectangle built in `draw`:
`Rectangle::new(Point::new(0, 0), fb.bounding_box().size)` for a `w × h`
framebuffer whose bounding box sits at the origin. -/
def screen_rect (w h : Nat) : Rect := ⟨0, 0, w, h⟩

/-- The triangle rectangle built in `draw`:
`Rectangle::with_corners(p1, p1.max(p2).max(p3))`, where `max` is the
lexicographic `Ord::max` of `Point`. -/
def triangle_bounds (p1 p2 p3 : Pt) : Rect :=
  Rect.with_corners p1 (Pt.lexMax (Pt.lexMax p1 p2) p3)

/-- The `DrawPrimitive::ColoredTriangle` arm of `draw` as the list of spans it
rasterizes: sort the vertices by `y`, cull back-facing triangles, cull
triangles whose `triangle_bounds` rectangle has zero-sized intersection with
the screen rectangle, then run `fill_triangle` with the framebuffer's
horizontal extent. -/
def drawTriangleSpans (v0 v1 v2 : Pt) (w h : Nat) : List Span :=
  let s := sort3 v0 v1 v2
  let p1 := s.1
  let p2 := s.2.1
  let p3 := s.2.2
  if is_backfacing p1 p2 p3 then []
  else if (Rect.intersection (screen_rect w h) (triangle_bounds p1 p2 p3)).is_zero_sized then []
  else fill_triangle p1 p2 p3 0 ((w : Int) - 1)

/-- The pixel coordinates written for one span: `x` from `sx` to `ex`
inclusive, at row `y`. -/
def spanPixels (s : Span) : List Pt :=
  (List.range (s.ex - s.sx + 1).toNat).map (fun i : Nat => ⟨s.sx + (i : Int), s.y⟩)

/-- All pixel coordinates emitted by the `ColoredTriangle` arm of `draw`, in
emission order. -/
def writtenPoints (v0 v1 v2 : Pt) (w h : Nat) : List Pt :=
  ((drawTriangleSpans v0 v1 v2 w h).map spanPixels).flatten

/- ===================== draw.rs: the framebuffer target and panics ===================== -/

/-- A pixel write: coordinate and an opaque 16-bit color value. -/
abbrev Batch := List (Pt × Nat)

/-- How a `draw` call ends. `completed` is normal return; the two aborting
outcomes model Rust panics: `panickedRowIndex` is the bounds-check panic on
`pixel_row[i]` when a scanline span exceeds `MAX_ROW_WIDTH`, and
`panickedUnwrap` is the `.unwrap()` panic when the framebuffer target
rejects a batch. There is no outcome that returns a device error to the
caller: `draw` in `draw.rs` returns `()`. -/
inductive Res
  | completed
  | panickedRowIndex
  | panickedUnwrap
deriving DecidableEq, Repr

/-- The observable effect of one `draw` call: the batches actually handed to
the framebuffer target (each one `fb.draw_iter(...)` call), and how the call
ended. -/
structure RunOut where
  emitted : List Batch
  res : Res
deriving DecidableEq, Repr

/-- The batch flushed for one span: the span's pixels, each with the color. -/
def spanBatch (s : Span) (c : Nat) : Batch :=
  (spanPixels s).map (fun p => (p, c))

/-- The per-scanline body of `fill_triangle` run against a device `dev`
(the target's batched pixel-write operation, `true` = accepted): fill
`pixel_row` — indexing past `MAX_ROW_WIDTH` panics before the batch is
flushed — then `fb.draw_iter(..).unwrap()`, panicking if the device rejects
the batch. -/
def runSpans (dev : Batch → Bool) (c : Nat) : List Span → RunOut
  | [] => ⟨[], .completed⟩
  | s :: rest =>
    if (MAX_ROW_WIDTH : Int) < s.ex - s.sx + 1 then ⟨[], .panickedRowIndex⟩
    else
      let b := spanBatch s c
      if dev b then
        let r := runSpans dev c rest
        ⟨b :: r.emitted, r.res⟩
      else ⟨[], .panickedUnwrap⟩

/-- Modelled from the spec: the `Line` arm of `draw` delegates pixel
enumeration to the external `line_drawing::Bresenham` crate, whose source is
not part of this repository. Per the spec, it is an "integer Bresenham-style
rasterization producing the ordered sequence of integer pixel coordinates
between two endpoints inclusive of both ends". Classic integer Bresenham,
with fuel bounding the walk length. -/
def bresenhamAux (x1 y1 sx sy dx dy : Int) : Nat → Int → Int → Int → List Pt
  | 0, _, _, _ => []
  | Nat.succ f, x, y, err =>
    ⟨x, y⟩ ::
      (if x = x1 ∧ y = y1 then []
       else
        let e2 := 2 * err
        let xs := if e2 ≥ dy then (x + sx, err + dy) else (x, err)
        let ys := if e2 ≤ dx then (y + sy, xs.2 + dx) else (y, xs.2)
        bresenhamAux x1 y1 sx sy dx dy f xs.1 ys.1 ys.2)

/-- Modelled from the spec: see `bresenhamAux`. -/
def bresenham (p q : Pt) : List Pt :=
  let dx := (q.x - p.x).natAbs
  let dy := (q.y - p.y).natAbs
  bresenhamAux q.x q.y (if p.x < q.x then 1 else -1) (if p.y < q.y then 1 else -1)
    (dx : Int) (-(dy : Int)) (dx + dy + 1) p.x p.y ((dx : Int) + (-(dy : Int)))

/-- `enum DrawPrimitive` from the crate: a 2-point line, a colored point, or
a 3-vertex colored triangle, with an opaque `Rgb565` color value. -/
inductive DrawPrimitive
  | Line (p1 p2 : Pt) (color : Nat)
  | ColoredPoint (p : Pt) (color : Nat)
  | ColoredTriangle (v0 v1 v2 : Pt) (color : Nat)

/-- `draw` from `draw.rs`, run against a `w × h` framebuffer whose batched
write operation is `dev`: the `Line` and `ColoredPoint` arms hand the device
a single batch and `.unwrap()` the result; the `ColoredTriangle` arm runs
scan conversion, flushing one batch per scanline. -/
def draw (dev : Batch → Bool) (w h : Nat) : DrawPrimitive → RunOut
  | .Line p1 p2 c =>
    let b := (bresenham p1 p2).map (fun p => (p, c))
    if dev b then ⟨[b], .completed⟩ else ⟨[], .panickedUnwrap⟩
  | .ColoredPoint p c =>
    let b := [(p, c)]
    if dev b then ⟨[b], .completed⟩ else ⟨[], .panickedUnwrap⟩
  | .ColoredTriangle v0 v1 v2 c => runSpans dev c (drawTriangleSpans v0 v1 v2 w h)

/-- The full batch sequence a `draw` call would flush if nothing failed. -/
def batchesOf (w h : Nat) : DrawPrimitive → List Batch
  | .Line p1 p2 c => [(bresenham p1 p2).map (fun p => (p, c))]
  | .ColoredPoint p c => [[(p, c)]]
  | .ColoredTriangle v0 v1 v2 c => (drawTriangleSpans v0 v1 v2 w h).map (fun s => spanBatch s c)

/-- A device that accepts every batch. -/
def acceptAll : Batch → Bool := fun _ => true

/-- A device that rejects every batch. -/
def rejectAll : Batch → Bool := fun _ => false

/- ===================== mesh.rs: Geometry ===================== -/

/-- `Geometry<'a>` from `mesh.rs`. Vertex/normal components (`f32`) are drawn
from an abstract type `F`, colors (`Rgb565`) from an abstract type `C`;
face and line entries are `usize` index triples/pairs. -/
structure Geometry (F C : Type) where
  vertices : List (F × F × F)
  faces : List (Nat × Nat × Nat)
  colors : List C
  lines : List (Nat × Nat)
  normals : List (F × F × F)
deriving DecidableEq

/-- `Geometry::check_validity` from `mesh.rs`: fail on empty vertices, then on
the first face with an index out of bounds, then on the first line with an
index out of bounds, then on a non-empty color list whose length differs from
the vertex count; otherwise succeed. -/
def Geometry.check_validity {F C : Type} (g : Geometry F C) : Bool :=
  if g.vertices.isEmpty then false
  else if g.faces.any (fun f =>
      decide (g.vertices.length ≤ f.1) || decide (g.vertices.length ≤ f.2.1) ||
      decide (g.vertices.length ≤ f.2.2)) then false
  else if g.lines.any (fun l =>
      decide (g.vertices.length ≤ l.1) || decide (g.vertices.length ≤ l.2)) then false
  else if !g.colors.isEmpty && !(decide (g.colors.length = g.vertices.length)) then false
  else true

/- ===================== mesh.rs: wireframe edge extraction ===================== -/

/-- The undirected normalization `if a < b { (a, b) } else { (b, a) }` of one
triangle edge. -/
def normEdge (a b : Nat) : Nat × Nat :=
  if a < b then (a, b) else (b, a)

/-- One `set.insert(edge)` on the capacity-`cap` `FnvIndexSet`, with the
returned `Result` discarded (`let _ = ...`): a present edge is a no-op, a new
edge is appended if the set is not full, and otherwise the edge is dropped.
Iteration order of the index set is insertion order. -/
def insertEdge (cap : Nat) (s : List (Nat × Nat)) (e : Nat × Nat) : List (Nat × Nat) :=
  if e ∈ s then s else if s.length < cap then s ++ [e] else s

/-- Unbounded insertion-order deduplication of an edge: the behaviour
`insertEdge` would have with unlimited capacity. Used to state what the full
unique-edge set of a face list is. -/
def insertEdgeU (s : List (Nat × Nat)) (e : Nat × Nat) : List (Nat × Nat) :=
  if e ∈ s then s else s ++ [e]

/-- The stream of normalized edges generated by the nested loops of
`Geometry::lines_from_faces`: for each face, the edges `(f0, f1)`, `(f1, f2)`,
`(f2, f0)`, each normalized. -/
def edgeStream (faces : List (Nat × Nat × Nat)) : List (Nat × Nat) :=
  (faces.map (fun f => [normEdge f.1 f.2.1, normEdge f.2.1 f.2.2, normEdge f.2.2 f.1])).flatten

/-- `Geometry::lines_from_faces` from `mesh.rs`: insert every normalized face
edge into a `FnvIndexSet<(usize, usize), 512>`, discarding each insert's
`Result`, and collect the set in iteration (= insertion) order. -/
def lines_from_faces (faces : List (Nat × Nat × Nat)) : List (Nat × Nat) :=
  (edgeStream faces).foldl (insertEdge 512) []

/-- The full deduplicated unique-edge list of a face list, in first-insertion
order, with no capacity bound. -/
def edgesDedup (faces : List (Nat × Nat × Nat)) : List (Nat × Nat) :=
  (edgeStream faces).foldl insertEdgeU []

/- ===================== mesh.rs: the similarity transform state ===================== -/

/-- `nalgebra::Similarity3<f32>` as used by `mesh.rs`: a translation vector
(three `f32` components, abstract type `F`), a unit rotation quaternion
(abstract type `Q`), and a uniform scale factor. -/
structure Similarity (F Q : Type) where
  tx : F
  ty : F
  tz : F
  rotation : Q
  scaling : F
deriving DecidableEq

/-- `RenderMode` from `mesh.rs`. -/
inductive RenderMode (F : Type)
  | Points
  | Lines
  | Solid
  | SolidLightDir (v : F × F × F)
deriving DecidableEq

/-- The operations of the numeric dependency (`f32` arithmetic and
`nalgebra`) that `mesh.rs` applies: zero and one, `f32` addition, the
identity quaternion, `UnitQuaternion::from_euler_angles`, quaternion
multiplication, `Similarity3::to_homogeneous` into an abstract matrix type
`M`, `Similarity3::look_at_rh(eye, target, up = y, 1.0)`, and the default
color `Rgb565::CSS_WHITE`. -/
structure Ops (F Q M C : Type) where
  fzero : F
  fone : F
  fadd : F → F → F
  qid : Q
  fromEuler : F → F → F → Q
  qmul : Q → Q → Q
  toHomogeneous : Similarity F Q → M
  lookAt : (F × F × F) → (F × F × F) → Similarity F Q
  white : C

/-- `K3dMesh<'a>` from `mesh.rs`: the similarity, the cached model matrix,
the dirty flag, the fallback color, the render mode, and the geometry view. -/
structure K3dMesh (F Q M C : Type) where
  similarity : Similarity F Q
  model_matrix : M
  model_dirty : Bool
  color : C
  render_mode : RenderMode F
  geometry : Geometry F C
deriving DecidableEq

/-- The similarity built by `Similarity3::new(Vector3::new(0.0, 0.0, 0.0),
nalgebra::zero(), 1.0)`: zero translation, identity rotation (zero
axis-angle), unit scale. -/
def simNew {F Q M C : Type} (ops : Ops F Q M C) : Similarity F Q :=
  ⟨ops.fzero, ops.fzero, ops.fzero, ops.qid, ops.fone⟩

/-- `K3dMesh::new`: `assert!(geometry.check_validity())` then construct with
the identity similarity, its homogeneous matrix, a clear dirty flag, white
color and `Points` mode. The assertion failure (a Rust panic) is modelled as
`none`. -/
def K3dMesh.new? {F Q M C : Type} (ops : Ops F Q M C) (g : Geometry F C) :
    Option (K3dMesh F Q M C) :=
  if g.check_validity then
    some ⟨simNew ops, ops.toHomogeneous (simNew ops), false, ops.white, .Points, g⟩
  else none

/-- `K3dMesh::default` (the `Default` impl in `mesh.rs`): constructs the mesh
directly — with no validity check — around a `Geometry` whose five buffers
are all empty. -/
def K3dMesh.default {F Q M C : Type} (ops : Ops F Q M C) : K3dMesh F Q M C :=
  ⟨simNew ops, ops.toHomogeneous (simNew ops), false, ops.white, .Points,
    ⟨[], [], [], [], []⟩⟩

/- ===================== mesh.rs: setters and the cached matrix ===================== -/

/-- `K3dMesh::set_color`. -/
def K3dMesh.set_color {F Q M C : Type} (m : K3dMesh F Q M C) (c : C) : K3dMesh F Q M C :=
  { m with color := c }

/-- `K3dMesh::set_render_mode`. -/
def K3dMesh.set_render_mode {F Q M C : Type} (m : K3dMesh F Q M C) (mode : RenderMode F) :
    K3dMesh F Q M C :=
  { m with render_mode := mode }

/-- `K3dMesh::set_position`: overwrite the translation and mark dirty only if
some component differs (exact `f32` comparison). -/
def K3dMesh.set_position {F Q M C : Type} [DecidableEq F] (m : K3dMesh F Q M C)
    (x y z : F) : K3dMesh F Q M C :=
  if m.similarity.tx ≠ x ∨ m.similarity.ty ≠ y ∨ m.similarity.tz ≠ z then
    { m with similarity := { m.similarity with tx := x, ty := y, tz := z },
             model_dirty := true }
  else m

/-- `K3dMesh::set_attitude`: build the quaternion from the Euler angles and
overwrite the rotation, marking dirty, only if it differs. -/
def K3dMesh.set_attitude {F Q M C : Type} [DecidableEq Q] (ops : Ops F Q M C)
    (m : K3dMesh F Q M C) (roll pitch yaw : F) : K3dMesh F Q M C :=
  let new_rot := ops.fromEuler roll pitch yaw
  if m.similarity.rotation ≠ new_rot then
    { m with similarity := { m.similarity with rotation := new_rot }, model_dirty := true }
  else m

/-- `K3dMesh::set_target`: rebuild the whole similarity as a look-at from the
current translation, and mark dirty unconditionally. -/
def K3dMesh.set_target {F Q M C : Type} (ops : Ops F Q M C) (m : K3dMesh F Q M C)
    (target : F × F × F) : K3dMesh F Q M C :=
  { m with similarity := ops.lookAt (m.similarity.tx, m.similarity.ty, m.similarity.tz) target,
           model_dirty := true }

/-- `K3dMesh::set_scale`: overwrite the scaling and mark dirty only if `s` is
nonzero and differs from the current scaling. -/
def K3dMesh.set_scale {F Q M C : Type} [DecidableEq F] (ops : Ops F Q M C)
    (m : K3dMesh F Q M C) (s : F) : K3dMesh F Q M C :=
  if s ≠ ops.fzero ∧ m.similarity.scaling ≠ s then
    { m with similarity := { m.similarity with scaling := s }, model_dirty := true }
  else m

/-- `K3dMesh::translate`: add the deltas to the translation and mark dirty
only if some delta is nonzero (exact `f32` comparison of the deltas, not of
the resulting translation). -/
def K3dMesh.translate {F Q M C : Type} [DecidableEq F] (ops : Ops F Q M C)
    (m : K3dMesh F Q M C) (dx dy dz : F) : K3dMesh F Q M C :=
  if dx ≠ ops.fzero ∨ dy ≠ ops.fzero ∨ dz ≠ ops.fzero then
    { m with similarity := { m.similarity with
               tx := ops.fadd m.similarity.tx dx,
               ty := ops.fadd m.similarity.ty dy,
               tz := ops.fadd m.similarity.tz dz },
             model_dirty := true }
  else m

/-- `K3dMesh::rotate`: multiply the additional rotation into the current one
and mark dirty — unconditionally, with no comparison. -/
def K3dMesh.rotate {F Q M C : Type} (ops : Ops F Q M C) (m : K3dMesh F Q M C)
    (roll pitch yaw : F) : K3dMesh F Q M C :=
  { m with similarity := { m.similarity with
             rotation := ops.qmul m.similarity.rotation (ops.fromEuler roll pitch yaw) },
           model_dirty := true }

/-- `K3dMesh::update_model_matrix`: recompute the cached matrix from the
similarity and clear the flag iff the flag is set. -/
def K3dMesh.update_model_matrix {F Q M C : Type} (ops : Ops F Q M C)
    (m : K3dMesh F Q M C) : K3dMesh F Q M C :=
  if m.model_dirty then
    { m with model_matrix := ops.toHomogeneous m.similarity, model_dirty := false }
  else m

/-- `K3dMesh::get_model_matrix`: `update_model_matrix` then return the cached
matrix; the pair is (returned matrix, state after the call). -/
def K3dMesh.get_model_matrix {F Q M C : Type} (ops : Ops F Q M C)
    (m : K3dMesh F Q M C) : M × K3dMesh F Q M C :=
  let m2 := m.update_model_matrix ops
  (m2.model_matrix, m2)

/-- The mesh states reachable through the public constructors and methods of
`K3dMesh`. -/
inductive Reachable {F Q M C : Type} [DecidableEq F] [DecidableEq Q]
    (ops : Ops F Q M C) : K3dMesh F Q M C → Prop
  | new (g : Geometry F C) (m : K3dMesh F Q M C) :
      K3dMesh.new? ops g = some m → Reachable ops m
  | dflt : Reachable ops (K3dMesh.default ops)
  | set_color (m : K3dMesh F Q M C) (c : C) :
      Reachable ops m → Reachable ops (m.set_color c)
  | set_render_mode (m : K3dMesh F Q M C) (mode : RenderMode F) :
      Reachable ops m → Reachable ops (m.set_render_mode mode)
  | set_position (m : K3dMesh F Q M C) (x y z : F) :
      Reachable ops m → Reachable ops (m.set_position x y z)
  | set_attitude (m : K3dMesh F Q M C) (roll pitch yaw : F) :
      Reachable ops m → Reachable ops (K3dMesh.set_attitude ops m roll pitch yaw)
  | set_target (m : K3dMesh F Q M C) (t : F × F × F) :
      Reachable ops m → Reachable ops (K3dMesh.set_target ops m t)
  | set_scale (m : K3dMesh F Q M C) (s : F) :
      Reachable ops m → Reachable ops (K3dMesh.set_scale ops m s)
  | translate (m : K3dMesh F Q M C) (dx dy dz : F) :
      Reachable ops m → Reachable ops (K3dMesh.translate ops m dx dy dz)
  | rotate (m : K3dMesh F Q M C) (roll pitch yaw : F) :
      Reachable ops m → Reachable ops (K3dMesh.rotate ops m roll pitch yaw)
  | update (m : K3dMesh F Q M C) :
      Reachable ops m → Reachable ops (m.update_model_matrix ops)
  | get (m : K3dMesh F Q M C) :
      Reachable ops m → Reachable ops (m.get_model_matrix ops).2

/-- A concrete instantiation of the numeric dependency, used to evaluate the
mesh model on explicit inputs: `F = Int`, quaternions as `Int` under
multiplication with identity 1 (`fromEuler 0 0 0 = 1`), matrices as the
similarity itself (`toHomogeneous = id`), colors as `Nat`. -/
def opsInt : Ops Int Int (Similarity Int Int) Nat where
  fzero := 0
  fone := 1
  fadd := fun a b => a + b
  qid := 1
  fromEuler := fun r p y => 1 + r + p + y
  qmul := fun a b => a * b
  toHomogeneous := fun s => s
  lookAt := fun _ t => ⟨t.1, t.2.1, t.2.2, 1, 1⟩
  white := 0

/-- A face list generating 513 pairwise distinct unique edges (3 per face,
no sharing): one more than the 512-entry capacity of the edge set. -/
def bigFaces : List (Nat × Nat × Nat) :=
  (List.range 171).map (fun i => (3 * i, 3 * i + 1, 3 * i + 2))

/- ============================================================================
   Theorems
   ============================================================================ -/

/-- Claim C2 (counterexample): the pixel (4, 0) satisfies the claimed
coverage predicate x + y ≤ 4, x ≥ 0, y ≥ 0, but rasterizing the
ColoredTriangle with vertices (0,0), (4,0), (0,4) against a 5 × 5
framebuffer never writes it: the emitted pixel set is not the claimed set. -/
theorem triangle_0440_04_misses_pixel_4_0 :
    ((4 : Int) + 0 ≤ 4 ∧ (0 : Int) ≤ 4 ∧ (0 : Int) ≤ 0) ∧
      (⟨4, 0⟩ : Pt) ∉ writtenPoints ⟨0, 0⟩ ⟨4, 0⟩ ⟨0, 4⟩ 5 5 := by
  decide

/-- Claim C2 (amended): rasterizing the ColoredTriangle with vertices (0,0),
(4,0), (0,4) against a 5 × 5 framebuffer writes exactly the pixels (x, y)
with 0 ≤ y ≤ 4 and 0 ≤ x ≤ max (3 - y) 0 — each row covered contiguously
from x = 0, each pixel written exactly once, the split row y = 0 rasterized
by the bottom half only (the top half is degenerate and skipped); the
hypotenuse pixels with x + y = 4 other than (0,4) are never written. -/
theorem triangle_0440_04_pixels :
    writtenPoints ⟨0, 0⟩ ⟨4, 0⟩ ⟨0, 4⟩ 5 5 =
      [⟨0, 0⟩, ⟨1, 0⟩, ⟨2, 0⟩, ⟨3, 0⟩, ⟨0, 1⟩, ⟨1, 1⟩, ⟨2, 1⟩, ⟨0, 2⟩, ⟨1, 2⟩,
        ⟨0, 3⟩, ⟨0, 4⟩] ∧
      (writtenPoints ⟨0, 0⟩ ⟨4, 0⟩ ⟨0, 4⟩ 5 5).Nodup ∧
      (∀ p ∈ writtenPoints ⟨0, 0⟩ ⟨4, 0⟩ ⟨0, 4⟩ 5 5,
        0 ≤ p.y ∧ p.y ≤ 4 ∧ 0 ≤ p.x ∧ p.x ≤ max (3 - p.y) 0) ∧
      (∀ y : Int, 0 ≤ y → y ≤ 4 → ∀ x : Int, 0 ≤ x → x ≤ max (3 - y) 0 →
        (⟨x, y⟩ : Pt) ∈ writtenPoints ⟨0, 0⟩ ⟨4, 0⟩ ⟨0, 4⟩ 5 5) := by
  refine ⟨by decide, by decide, by decide, ?_⟩
  intro y hy0 hy4 x hx0 hx
  interval_cases y <;> simp at hx <;> interval_cases x <;> decide

/-- Claim C1 (code evaluated at the failing input): with the default
MAX_ROW_WIDTH = 100, a triangle whose first scanline spans 101 pixels on a
101-wide framebuffer makes fill_triangle abort with the row-buffer
index-out-of-bounds panic before any batch reaches the device — there is no
RowCapacityExceeded error value anywhere in the code — while a scanline span
of exactly 100 pixels on a 100-wide framebuffer completes normally. -/
theorem row_buffer_overflow_panics :
    (draw acceptAll 101 5 (.ColoredTriangle ⟨0, 0⟩ ⟨100, 1⟩ ⟨0, 2⟩ 0)).res =
        Res.panickedRowIndex ∧
      (draw acceptAll 101 5 (.ColoredTriangle ⟨0, 0⟩ ⟨100, 1⟩ ⟨0, 2⟩ 0)).emitted = [] ∧
      (draw acceptAll 100 5 (.ColoredTriangle ⟨0, 0⟩ ⟨99, 1⟩ ⟨0, 2⟩ 0)).res =
        Res.completed := by
  decide

/-- Claim C5 (counterexample): a device that rejects the batch of a
ColoredPoint draw call makes the call abort with the unwrap panic; the
failure is not surfaced to the caller as an error result (draw returns `()`
in the source — the model's only outcomes are completion and panics). -/
theorem device_rejection_panics_point :
    (draw rejectAll 5 5 (.ColoredPoint ⟨1, 1⟩ 7)).res = Res.panickedUnwrap ∧
      (draw rejectAll 5 5 (.ColoredPoint ⟨1, 1⟩ 7)).emitted = [] ∧
      Res.panickedUnwrap ≠ Res.completed := by
  decide

/-- Claim C7 (counterexample): starting from the freshly constructed default
mesh (dirty flag clear, identity rotation), `rotate 0 0 0` composes the
identity rotation — leaving the whole similarity unchanged — yet sets the
dirty flag, because `rotate` marks dirty unconditionally. -/
theorem rotate_identity_sets_dirty :
    (K3dMesh.default opsInt).model_dirty = false ∧
      (K3dMesh.rotate opsInt (K3dMesh.default opsInt) 0 0 0).similarity =
        (K3dMesh.default opsInt).similarity ∧
      (K3dMesh.rotate opsInt (K3dMesh.default opsInt) 0 0 0).model_dirty = true := by
  decide

/-- Claim C3 (counterexample): the front-facing triangle (0,0), (4,1), (0,10)
overlaps a 5 × 5 framebuffer, and rasterizing it emits the pixel write
(0, 5), whose y coordinate is outside [0, 5): scanline rows are never
clamped to the framebuffer's vertical extent. -/
theorem triangle_writes_below_screen :
    (⟨0, 5⟩ : Pt) ∈ writtenPoints ⟨0, 0⟩ ⟨4, 1⟩ ⟨0, 10⟩ 5 5 ∧ ¬((5 : Int) < 5) := by
  decide

/-- Claim C9 (counterexample): the triangle (10,0), (12,2), (0,4) is
front-facing after the y-sort, and its axis-aligned bounding box
[0,12] × [0,4] (componentwise min to componentwise max of the vertices)
intersects the 5 × 5 screen rectangle — yet the draw call discards it
without a single pixel write, because the code intersects the screen with
`with_corners(p1, p1.max(p2).max(p3))` (lexicographic max), a rectangle
whose x-range [10,12] misses the screen. -/
theorem overlapping_triangle_discarded :
    is_backfacing (sort3 ⟨10, 0⟩ ⟨12, 2⟩ ⟨0, 4⟩).1 (sort3 ⟨10, 0⟩ ⟨12, 2⟩ ⟨0, 4⟩).2.1
        (sort3 ⟨10, 0⟩ ⟨12, 2⟩ ⟨0, 4⟩).2.2 = false ∧
      (min (min (10 : Int) 12) 0 ≤ 4 ∧ (0 : Int) ≤ max (max (10 : Int) 12) 0 ∧
        min (min (0 : Int) 2) 4 ≤ 4 ∧ (0 : Int) ≤ max (max (0 : Int) 2) 4) ∧
      writtenPoints ⟨10, 0⟩ ⟨12, 2⟩ ⟨0, 4⟩ 5 5 = [] := by
  decide

/-- Claim C10: the Default impl of K3dMesh constructs a mesh whose geometry
has empty vertex, face, line, color and normal buffers, without invoking the
validity check — that geometry fails check_validity, and K3dMesh::new
(modelled as `new?`) refuses (panics on) the very same geometry. -/
theorem default_mesh_bypasses_validity {F Q M C : Type} (ops : Ops F Q M C) :
    (K3dMesh.default ops).geometry.vertices = [] ∧
      (K3dMesh.default ops).geometry.faces = [] ∧
      (K3dMesh.default ops).geometry.lines = [] ∧
      (K3dMesh.default ops).geometry.colors = [] ∧
      (K3dMesh.default ops).geometry.normals = [] ∧
      (K3dMesh.default ops).geometry.check_validity = false ∧
      K3dMesh.new? ops (K3dMesh.default ops).geometry = none := by
  refine ⟨rfl, rfl, rfl, rfl, rfl, rfl, rfl⟩

/-- The cache invariant of the dirty-flag design: whenever the flag is
clear, the cached matrix is the homogeneous matrix of the current
similarity. -/
def cacheInv {F Q M C : Type} (ops : Ops F Q M C) (m : K3dMesh F Q M C) : Prop :=
  m.model_dirty = false → m.model_matrix = ops.toHomogeneous m.similarity

theorem reachable_cacheInv {F Q M C : Type} [DecidableEq F] [DecidableEq Q]
    {ops : Ops F Q M C} {m : K3dMesh F Q M C} (h : Reachable ops m) :
    cacheInv ops m := by
  induction h with
  | new g m hm =>
    unfold K3dMesh.new? at hm
    split at hm
    · cases hm; intro _; rfl
    · cases hm
  | dflt => intro _; rfl
  | set_color m c _ ih => exact ih
  | set_render_mode m mode _ ih => exact ih
  | set_position m x y z _ ih =>
    unfold K3dMesh.set_position
    split
    · intro hf; cases hf
    · exact ih
  | set_attitude m roll pitch yaw _ ih =>
    unfold K3dMesh.set_attitude
    dsimp only
    split
    · intro hf; cases hf
    · exact ih
  | set_target m t _ ih => intro hf; cases hf
  | set_scale m s _ ih =>
    unfold K3dMesh.set_scale
    split
    · intro hf; cases hf
    · exact ih
  | translate m dx dy dz _ ih =>
    unfold K3dMesh.translate
    split
    · intro hf; cases hf
    · exact ih
  | rotate m roll pitch yaw _ ih => intro hf; cases hf
  | update m _ ih =>
    unfold K3dMesh.update_model_matrix
    split
    · intro _; rfl
    · exact ih
  | get m _ ih =>
    unfold K3dMesh.get_model_matrix K3dMesh.update_model_matrix
    dsimp only
    split
    · intro _; rfl
    · exact ih

/-- Claim C6: on every reachable mesh state the cached model matrix is never
served stale — whenever the dirty flag is clear the cache equals the
homogeneous matrix of the current similarity, so get_model_matrix always
returns exactly that matrix; it leaves the flag clear, and when the flag was
already clear it recomputes nothing (the state, cache included, is returned
unchanged). -/
theorem get_model_matrix_never_stale {F Q M C : Type} [DecidableEq F] [DecidableEq Q]
    {ops : Ops F Q M C} {m : K3dMesh F Q M C} (h : Reachable ops m) :
    (m.get_model_matrix ops).1 = ops.toHomogeneous m.similarity ∧
      (m.get_model_matrix ops).2.model_dirty = false ∧
      (m.model_dirty = false →
        m.get_model_matrix ops = (m.model_matrix, m) ∧
          m.model_matrix = ops.toHomogeneous m.similarity) := by
  have hinv := reachable_cacheInv h
  rcases hd : m.model_dirty with _ | _
  · have hm := hinv hd
    refine ⟨?_, ?_, fun _ => ⟨?_, hm⟩⟩
    · simp [K3dMesh.get_model_matrix, K3dMesh.update_model_matrix, hd, hm]
    · simp [K3dMesh.get_model_matrix, K3dMesh.update_model_matrix, hd]
    · simp [K3dMesh.get_model_matrix, K3dMesh.update_model_matrix, hd]
  · refine ⟨?_, ?_, fun hf => by cases hf⟩
    · simp [K3dMesh.get_model_matrix, K3dMesh.update_model_matrix, hd]
    · simp [K3dMesh.get_model_matrix, K3dMesh.update_model_matrix, hd]

/-- Claim C6 (witness): the theorem evaluated on the reachable default mesh
over the concrete integer instantiation of the numeric dependency. -/
theorem get_model_matrix_never_stale_witness :
    ((K3dMesh.default opsInt).get_model_matrix opsInt).1 =
        opsInt.toHomogeneous (K3dMesh.default opsInt).similarity ∧
      ((K3dMesh.default opsInt).get_model_matrix opsInt).2.model_dirty = false :=
  ⟨(get_model_matrix_never_stale Reachable.dflt).1,
    (get_model_matrix_never_stale Reachable.dflt).2.1⟩

/-- Claim C7 (amended): set_position, set_attitude and set_scale set the
dirty flag only if the written value differs from the current one under the
code's exact comparison — in particular setting each to its current value is
a complete no-op — and a zero translate is a no-op, with translate marking
dirty exactly when some delta component is nonzero (the deltas are compared,
not the resulting translation); rotate, however, always sets the dirty flag,
even when the composed rotation leaves the similarity unchanged. -/
theorem setters_dirty_flag_guards {F Q M C : Type} [DecidableEq F] [DecidableEq Q]
    (ops : Ops F Q M C) (m : K3dMesh F Q M C) :
    m.set_position m.similarity.tx m.similarity.ty m.similarity.tz = m ∧
      (∀ roll pitch yaw, ops.fromEuler roll pitch yaw = m.similarity.rotation →
        K3dMesh.set_attitude ops m roll pitch yaw = m) ∧
      K3dMesh.set_scale ops m m.similarity.scaling = m ∧
      K3dMesh.translate ops m ops.fzero ops.fzero ops.fzero = m ∧
      (∀ x y z, (m.set_position x y z).model_dirty = true →
        m.model_dirty = true ∨ (m.set_position x y z).similarity ≠ m.similarity) ∧
      (∀ roll pitch yaw, (K3dMesh.set_attitude ops m roll pitch yaw).model_dirty = true →
        m.model_dirty = true ∨
          (K3dMesh.set_attitude ops m roll pitch yaw).similarity ≠ m.similarity) ∧
      (∀ s, (K3dMesh.set_scale ops m s).model_dirty = true →
        m.model_dirty = true ∨ (K3dMesh.set_scale ops m s).similarity ≠ m.similarity) ∧
      (∀ dx dy dz, (K3dMesh.translate ops m dx dy dz).model_dirty = true →
        m.model_dirty = true ∨ dx ≠ ops.fzero ∨ dy ≠ ops.fzero ∨ dz ≠ ops.fzero) ∧
      (∀ roll pitch yaw, (K3dMesh.rotate ops m roll pitch yaw).model_dirty = true) := by
  refine ⟨?_, ?_, ?_, ?_, ?_, ?_, ?_, ?_, ?_⟩
  · unfold K3dMesh.set_position
    simp
  · intro roll pitch yaw hrot
    unfold K3dMesh.set_attitude
    dsimp only
    simp [hrot]
  · unfold K3dMesh.set_scale
    simp
  · unfold K3dMesh.translate
    simp
  · intro x y z
    unfold K3dMesh.set_position
    split
    · rename_i hcond
      intro _
      right
      intro heq
      rcases hcond with hc | hc | hc
      · exact hc ((congrArg Similarity.tx heq).symm)
      · exact hc ((congrArg Similarity.ty heq).symm)
      · exact hc ((congrArg Similarity.tz heq).symm)
    · intro hd; exact Or.inl hd
  · intro roll pitch yaw
    unfold K3dMesh.set_attitude
    dsimp only
    split
    · rename_i hcond
      intro _
      right
      intro heq
      exact hcond ((congrArg Similarity.rotation heq).symm)
    · intro hd; exact Or.inl hd
  · intro s
    unfold K3dMesh.set_scale
    split
    · rename_i hcond
      intro _
      right
      intro heq
      exact hcond.2 ((congrArg Similarity.scaling heq).symm)
    · intro hd; exact Or.inl hd
  · intro dx dy dz
    unfold K3dMesh.translate
    split
    · rename_i hcond
      intro _
      right
      exact hcond
    · intro hd; exact Or.inl hd
  · intro roll pitch yaw
    rfl

/-- Claim C7 (witness): the amended theorem evaluated on the default mesh
over the concrete integer instantiation — a no-op set_position, a no-op
set_attitude whose Euler angles reproduce the current rotation, and the
unconditional dirty flag of rotate. -/
theorem setters_dirty_flag_guards_witness :
    K3dMesh.set_position (K3dMesh.default opsInt) 0 0 0 = K3dMesh.default opsInt ∧
      K3dMesh.set_attitude opsInt (K3dMesh.default opsInt) 0 0 0 = K3dMesh.default opsInt ∧
      (K3dMesh.rotate opsInt (K3dMesh.default opsInt) 0 0 0).model_dirty = true :=
  ⟨(setters_dirty_flag_guards opsInt (K3dMesh.default opsInt)).1,
    (setters_dirty_flag_guards opsInt (K3dMesh.default opsInt)).2.1 0 0 0 (by decide),
    (setters_dirty_flag_guards opsInt (K3dMesh.default opsInt)).2.2.2.2.2.2.2.2 0 0 0⟩

/-- Claim C8: check_validity returns false exactly when some face index or
line index reaches the vertex count, or the vertex list is empty, or the
color list is non-empty with a length different from the vertex count — and
returns true otherwise. -/
theorem check_validity_false_iff {F C : Type} (g : Geometry F C) :
    g.check_validity = false ↔
      (g.vertices = [] ∨
        (∃ f ∈ g.faces, g.vertices.length ≤ f.1 ∨ g.vertices.length ≤ f.2.1 ∨
          g.vertices.length ≤ f.2.2) ∨
        (∃ l ∈ g.lines, g.vertices.length ≤ l.1 ∨ g.vertices.length ≤ l.2) ∨
        (g.colors ≠ [] ∧ g.colors.length ≠ g.vertices.length)) := by
  unfold Geometry.check_validity
  split
  · rename_i h1
    simp only [List.isEmpty_iff] at h1
    simp [h1]
  · rename_i h1
    split
    · rename_i h2
      simp only [List.any_eq_true, Bool.or_eq_true, decide_eq_true_eq] at h2
      exact iff_of_true rfl (Or.inr (Or.inl (by simpa [or_assoc] using h2)))
    · rename_i h2
      split
      · rename_i h3
        simp only [List.any_eq_true, Bool.or_eq_true, decide_eq_true_eq] at h3
        exact iff_of_true rfl (Or.inr (Or.inr (Or.inl h3)))
      · rename_i h3
        split
        · rename_i h4
          simp only [Bool.and_eq_true, Bool.not_eq_true', List.isEmpty_eq_false,
            decide_eq_false_iff_not] at h4
          exact iff_of_true rfl (Or.inr (Or.inr (Or.inr h4)))
        · rename_i h4
          refine iff_of_false (by simp) ?_
          intro hrhs
          rcases hrhs with h | h | h | h
          · exact h1 (by simp [h])
          · exact h2 (by
              simp only [List.any_eq_true, Bool.or_eq_true, decide_eq_true_eq]
              simpa [or_assoc] using h)
          · exact h3 (by
              simp only [List.any_eq_true, Bool.or_eq_true, decide_eq_true_eq]
              exact h)
          · exact h4 (by
              simp only [Bool.and_eq_true, Bool.not_eq_true', List.isEmpty_eq_false,
                decide_eq_false_iff_not]
              exact h)

theorem insertEdge_take (cap : Nat) (u : List (Nat × Nat)) (e : Nat × Nat) :
    insertEdge cap (u.take cap) e = (insertEdgeU u e).take cap := by
  unfold insertEdge insertEdgeU
  by_cases h1 : e ∈ u.take cap
  · have h2 : e ∈ u := List.take_subset cap u h1
    simp [h1, h2]
  · by_cases h2 : (u.take cap).length < cap
    · have hlen : u.length < cap := by
        have := List.length_take cap u
        omega
      have hu : u.take cap = u := List.take_of_length_le (by omega)
      have h3 : e ∉ u := by rw [← hu]; exact h1
      rw [if_neg h1, if_pos h2, if_neg h3, hu,
        List.take_of_length_le (by simp; omega)]
    · have hcap : cap ≤ u.length := by
        have := List.length_take cap u
        omega
      by_cases h3 : e ∈ u
      · simp [h1, h2, h3, hcap]
      · simp only [h1, if_false, h2, h3]
        rw [List.take_append_of_le_length hcap]

theorem foldl_insertEdge_take (cap : Nat) (es : List (Nat × Nat)) :
    ∀ u : List (Nat × Nat),
      es.foldl (insertEdge cap) (u.take cap) = (es.foldl insertEdgeU u).take cap := by
  induction es with
  | nil => intro u; simp
  | cons e es ih =>
    intro u
    simp only [List.foldl_cons]
    rw [insertEdge_take, ih]

/-- Claim C4 (amended): lines_from_faces returns the unique undirected edges
of the face list in first-insertion order, truncated to the fixed 512-entry
capacity of the index set: at or under capacity it returns exactly the
deduplicated edge set, and beyond capacity the excess edges are silently
dropped — each overflowing insert's Result is discarded (`let _ = ...`) and
the function reports no error of any kind. -/
theorem lines_from_faces_take_512 (faces : List (Nat × Nat × Nat)) :
    lines_from_faces faces = (edgesDedup faces).take 512 ∧
      ((edgesDedup faces).length ≤ 512 → lines_from_faces faces = edgesDedup faces) := by
  have h : lines_from_faces faces = (edgesDedup faces).take 512 := by
    unfold lines_from_faces edgesDedup
    have := foldl_insertEdge_take 512 (edgeStream faces) []
    simpa using this
  exact ⟨h, fun hle => by rw [h, List.take_of_length_le hle]⟩

/-- Claim C4 (amended, witness): on a single face the three unique edges fit
the capacity and are returned exactly. -/
theorem lines_from_faces_take_512_witness :
    (edgesDedup [(0, 1, 2)]).length ≤ 512 ∧
      lines_from_faces [(0, 1, 2)] = edgesDedup [(0, 1, 2)] :=
  ⟨by decide, (lines_from_faces_take_512 [(0, 1, 2)]).2 (by decide)⟩

theorem foldl_insertEdgeU_of_nodup :
    ∀ (es acc : List (Nat × Nat)), (acc ++ es).Nodup →
      es.foldl insertEdgeU acc = acc ++ es := by
  intro es
  induction es with
  | nil => intro acc _; simp
  | cons e es ih =>
    intro acc h
    have hnotin : e ∉ acc := by
      rcases List.nodup_append.mp h with ⟨_, _, hdisj⟩
      intro hmem
      exact hdisj hmem (List.mem_cons_self _ _)
    have hstep : insertEdgeU acc e = acc ++ [e] := by
      unfold insertEdgeU
      simp [hnotin]
    simp only [List.foldl_cons, hstep]
    have h2 : ((acc ++ [e]) ++ es).Nodup := by
      simpa using h
    rw [ih (acc ++ [e]) h2]
    simp

theorem edgeStream_bigFaces :
    edgeStream bigFaces =
      ((List.range 171).map
        (fun i => [(3 * i, 3 * i + 1), (3 * i + 1, 3 * i + 2), (3 * i, 3 * i + 2)])).flatten := by
  unfold edgeStream bigFaces
  rw [List.map_map]
  congr 1

theorem edgeStream_bigFaces_nodup : (edgeStream bigFaces).Nodup := by
  rw [edgeStream_bigFaces]
  rw [List.nodup_flatten]
  constructor
  · intro l hl
    rcases List.mem_map.mp hl with ⟨i, _, rfl⟩
    refine List.nodup_cons.mpr ⟨?_, List.nodup_cons.mpr ⟨?_, List.nodup_singleton _⟩⟩
    · intro hmem
      simp only [List.mem_cons, List.not_mem_nil, or_false, Prod.mk.injEq] at hmem
      omega
    · intro hmem
      simp only [List.mem_cons, List.not_mem_nil, or_false, Prod.mk.injEq] at hmem
      omega
  · rw [List.pairwise_map]
    refine List.Pairwise.imp_of_mem ?_ (List.pairwise_lt_range 171)
    intro i j _ _ hij
    intro x hx hy
    simp only [List.mem_cons, List.not_mem_nil, or_false] at hx hy
    rcases hx with rfl | rfl | rfl <;> rcases hy with h | h | h <;>
      (rw [Prod.mk.injEq] at h; omega)

theorem edgeStream_bigFaces_length : (edgeStream bigFaces).length = 513 := by
  rw [edgeStream_bigFaces]
  rw [List.length_flatten, List.map_map]
  have : ((List.range 171).map
      (List.length ∘ fun i => [(3 * i, 3 * i + 1), (3 * i + 1, 3 * i + 2), (3 * i, 3 * i + 2)]))
      = List.replicate 171 3 := by
    apply List.eq_replicate_iff.mpr
    constructor
    · simp
    · intro b hb
      rcases List.mem_map.mp hb with ⟨i, _, rfl⟩
      rfl
  rw [this]
  rw [List.sum_replicate]
  rfl

theorem edgesDedup_bigFaces : edgesDedup bigFaces = edgeStream bigFaces := by
  unfold edgesDedup
  have := foldl_insertEdgeU_of_nodup (edgeStream bigFaces) []
  simpa using this (by simpa using edgeStream_bigFaces_nodup)

/-- Claim C4 (counterexample): the face list `bigFaces` produces 513 unique
undirected edges — one more than the 512-entry capacity — yet
lines_from_faces returns a plain 512-element edge list: at least one unique
edge is missing from the result and no EdgeCapacityExceeded error (or error
of any kind) is reported, the function's return type being a bare vector of
edges. -/
theorem lines_from_faces_silent_drop :
    (edgesDedup bigFaces).length = 513 ∧
      (lines_from_faces bigFaces).length = 512 ∧
      ∃ e ∈ edgesDedup bigFaces, e ∉ lines_from_faces bigFaces := by
  have hlen : (edgesDedup bigFaces).length = 513 := by
    rw [edgesDedup_bigFaces]; exact edgeStream_bigFaces_length
  have htake : lines_from_faces bigFaces = (edgesDedup bigFaces).take 512 := by
    unfold lines_from_faces edgesDedup
    simpa using foldl_insertEdge_take 512 (edgeStream bigFaces) []
  have hnodup : (edgesDedup bigFaces).Nodup := by
    rw [edgesDedup_bigFaces]; exact edgeStream_bigFaces_nodup
  refine ⟨hlen, ?_, ?_⟩
  · rw [htake, List.length_take, hlen]
    omega
  · have hdroplen : ((edgesDedup bigFaces).drop 512).length = 1 := by
      rw [List.length_drop, hlen]
    have hne : (edgesDedup bigFaces).drop 512 ≠ [] := by
      intro hc
      rw [hc] at hdroplen
      simp at hdroplen
    obtain ⟨e, rest, hdrop⟩ := List.exists_cons_of_ne_nil hne
    have hsplit := List.take_append_drop 512 (edgesDedup bigFaces)
    have hmem : e ∈ edgesDedup bigFaces := by
      rw [← hsplit, hdrop]
      exact List.mem_append_right _ (List.mem_cons_self _ _)
    refine ⟨e, hmem, ?_⟩
    rw [htake]
    have hnd : ((edgesDedup bigFaces).take 512 ++ (edgesDedup bigFaces).drop 512).Nodup := by
      rw [hsplit]; exact hnodup
    rcases List.nodup_append.mp hnd with ⟨_, _, hdisj⟩
    intro hin
    exact hdisj hin (by rw [hdrop]; exact List.mem_cons_self _ _)

theorem scanRows_mem_bounds {min_x max_x : Int} (hlm : min_x ≤ max_x) :
    ∀ (n : Nat) (a b : Interpolator) (y : Int) (s : Span),
      s ∈ scanRows a b y n min_x max_x → min_x ≤ s.sx ∧ s.sx ≤ s.ex ∧ s.ex ≤ max_x := by
  intro n
  induction n with
  | zero =>
    intro a b y s hs
    simp [scanRows] at hs
  | succ m ih =>
    intro a b y s hs
    simp only [scanRows] at hs
    rcases List.mem_cons.mp hs with rfl | htail
    · dsimp only
      unfold clampI
      split_ifs <;> omega
    · exact ih _ _ _ _ htail

theorem fill_triangle_mem_bounds {min_x max_x : Int} (hlm : min_x ≤ max_x)
    {p1 p2 p3 : Pt} {s : Span} (hs : s ∈ fill_triangle p1 p2 p3 min_x max_x) :
    min_x ≤ s.sx ∧ s.sx ≤ s.ex ∧ s.ex ≤ max_x := by
  unfold fill_triangle at hs
  dsimp only at hs
  split at hs
  · simp at hs
  · rcases List.mem_append.mp hs with hmem | hmem
    · split at hmem
      · exact scanRows_mem_bounds hlm _ _ _ _ _ hmem
      · simp at hmem
    · split at hmem
      · exact scanRows_mem_bounds hlm _ _ _ _ _ hmem
      · simp at hmem

theorem spanPixels_mem {s : Span} {p : Pt} (hp : p ∈ spanPixels s) :
    s.sx ≤ p.x ∧ p.x ≤ s.ex ∧ p.y = s.y := by
  unfold spanPixels at hp
  rw [List.mem_map] at hp
  obtain ⟨i, hi, hq⟩ := hp
  rw [List.mem_range] at hi
  subst hq
  refine ⟨?_, ?_, rfl⟩ <;> dsimp only <;> omega

/-- Claim C3 (amended): every pixel write emitted by the ColoredTriangle path
has its x coordinate inside [0, width) — both span endpoints are clamped to
the framebuffer's horizontal extent — but the scanline row y is not clamped
and can lie outside [0, height), as the counterexample shows. -/
theorem triangle_writes_x_clamped (v0 v1 v2 : Pt) (w h : Nat) (hw : 1 ≤ w) :
    ∀ p ∈ writtenPoints v0 v1 v2 w h, 0 ≤ p.x ∧ p.x < (w : Int) := by
  intro p hp
  unfold writtenPoints at hp
  rcases List.mem_flatten.mp hp with ⟨l, hl, hpl⟩
  rcases List.mem_map.mp hl with ⟨s, hs, rfl⟩
  have hpx := spanPixels_mem hpl
  unfold drawTriangleSpans at hs
  dsimp only at hs
  split at hs
  · simp at hs
  · split at hs
    · simp at hs
    · have hb := fill_triangle_mem_bounds (by omega : (0 : Int) ≤ (w : Int) - 1) hs
      omega

/-- Claim C3 (amended, witness): the theorem applied to the concrete triangle
(0,0), (4,0), (0,4) on a 5 × 5 framebuffer at the written pixel (0,0). -/
theorem triangle_writes_x_clamped_witness :
    (1 ≤ 5) ∧ ((⟨0, 0⟩ : Pt) ∈ writtenPoints ⟨0, 0⟩ ⟨4, 0⟩ ⟨0, 4⟩ 5 5) ∧
      (0 ≤ (Pt.mk 0 0).x ∧ (Pt.mk 0 0).x < (5 : Int)) :=
  ⟨by decide, by decide,
    triangle_writes_x_clamped ⟨0, 0⟩ ⟨4, 0⟩ ⟨0, 4⟩ 5 5 (by decide) ⟨0, 0⟩ (by decide)⟩

theorem sort3_sorted (v0 v1 v2 : Pt) :
    (sort3 v0 v1 v2).1.y ≤ (sort3 v0 v1 v2).2.1.y ∧
      (sort3 v0 v1 v2).2.1.y ≤ (sort3 v0 v1 v2).2.2.y := by
  unfold sort3
  dsimp only
  split_ifs <;> constructor <;> simp <;> omega

theorem frontfacing_area_pos {p1 p2 p3 : Pt} (h : is_backfacing p1 p2 p3 = false) :
    0 < (p2.x - p1.x) * (p3.y - p1.y) - (p2.y - p1.y) * (p3.x - p1.x) := by
  unfold is_backfacing at h
  dsimp only at h
  rw [decide_eq_false_iff_not] at h
  exact not_le.mp h

theorem scanRows_ne_nil {a b : Interpolator} {y min_x max_x : Int} {n : Nat} (hn : 0 < n) :
    scanRows a b y n min_x max_x ≠ [] := by
  cases n with
  | zero => omega
  | succ m => simp [scanRows]

theorem spanPixels_ne_nil {s : Span} (h : s.sx ≤ s.ex) : spanPixels s ≠ [] := by
  unfold spanPixels
  simp only [ne_eq, List.map_eq_nil_iff, List.range_eq_nil]
  omega

theorem fill_triangle_ne_nil {p1 p2 p3 : Pt} {lo hi : Int}
    (hs1 : p1.y ≤ p2.y) (hs2 : p2.y ≤ p3.y)
    (harea : 0 < (p2.x - p1.x) * (p3.y - p1.y) - (p2.y - p1.y) * (p3.x - p1.x)) :
    fill_triangle p1 p2 p3 lo hi ≠ [] := by
  unfold fill_triangle
  dsimp only
  rw [if_neg (not_le.mpr harea)]
  by_cases htop : p2.y - p1.y > 0
  · rw [if_pos htop]
    intro hc
    exact scanRows_ne_nil (by omega) (List.append_eq_nil.mp hc).1
  · have hbot : p3.y - p2.y > 0 := by
      by_contra hc
      have hz1 : p3.y - p1.y = 0 := by omega
      have hz2 : p2.y - p1.y = 0 := by omega
      have : (p2.x - p1.x) * (p3.y - p1.y) - (p2.y - p1.y) * (p3.x - p1.x) = 0 := by
        rw [hz1, hz2]
        ring
      omega
    rw [if_neg htop, if_pos hbot]
    simp only [List.nil_append]
    exact scanRows_ne_nil (by omega)

theorem with_corners_has_bottom_right (c1 c2 : Pt) :
    ∃ br, (Rect.with_corners c1 c2).bottom_right = some br := by
  unfold Rect.with_corners Rect.bottom_right
  exact ⟨_, if_pos ⟨Nat.succ_pos _, Nat.succ_pos _⟩⟩

theorem screen_rect_no_bottom_right {w h : Nat} (hw : ¬(0 < w ∧ 0 < h)) :
    (screen_rect w h).bottom_right = none := by
  unfold screen_rect Rect.bottom_right
  exact if_neg hw

theorem intersection_pos_dims {w h : Nat} {r : Rect}
    (hbr : ∃ br, r.bottom_right = some br)
    (hz : (Rect.intersection (screen_rect w h) r).is_zero_sized = false) :
    1 ≤ w ∧ 1 ≤ h := by
  by_contra hc
  have hw : ¬(0 < w ∧ 0 < h) := by omega
  obtain ⟨br, hbr⟩ := hbr
  unfold Rect.intersection at hz
  rw [hbr, screen_rect_no_bottom_right hw] at hz
  simp [Rect.is_zero_sized, Rect.zero] at hz

/-- Claim C9 (amended): after the y-sort, a front-facing triangle is
discarded without any pixel write exactly when the rectangle the code builds
— `with_corners(p1, p1.max(p2).max(p3))`, spanning the y-lowest vertex and
the lexicographically largest vertex, not the triangle's axis-aligned
bounding box — has zero-sized intersection with the screen rectangle; every
front-facing triangle whose code rectangle overlaps the screen emits at
least one pixel write. -/
theorem triangle_discard_iff (v0 v1 v2 : Pt) (w h : Nat)
    (hfront : is_backfacing (sort3 v0 v1 v2).1 (sort3 v0 v1 v2).2.1
      (sort3 v0 v1 v2).2.2 = false) :
    (writtenPoints v0 v1 v2 w h = [] ↔
      (Rect.intersection (screen_rect w h)
        (triangle_bounds (sort3 v0 v1 v2).1 (sort3 v0 v1 v2).2.1
          (sort3 v0 v1 v2).2.2)).is_zero_sized = true) := by
  constructor
  · intro hnil
    by_contra hz
    have hzf : (Rect.intersection (screen_rect w h)
        (triangle_bounds (sort3 v0 v1 v2).1 (sort3 v0 v1 v2).2.1
          (sort3 v0 v1 v2).2.2)).is_zero_sized = false := by
      rcases hb : (Rect.intersection (screen_rect w h)
          (triangle_bounds (sort3 v0 v1 v2).1 (sort3 v0 v1 v2).2.1
            (sort3 v0 v1 v2).2.2)).is_zero_sized with _ | _
      · rfl
      · exact absurd hb hz
    obtain ⟨hw1, hh1⟩ :=
      intersection_pos_dims (with_corners_has_bottom_right _ _) hzf
    have hspans : drawTriangleSpans v0 v1 v2 w h =
        fill_triangle (sort3 v0 v1 v2).1 (sort3 v0 v1 v2).2.1 (sort3 v0 v1 v2).2.2
          0 ((w : Int) - 1) := by
      unfold drawTriangleSpans
      dsimp only
      rw [if_neg (by simp [hfront]), if_neg (by simp [hzf])]
    have hsorted := sort3_sorted v0 v1 v2
    have harea := frontfacing_area_pos hfront
    have hfill : fill_triangle (sort3 v0 v1 v2).1 (sort3 v0 v1 v2).2.1
        (sort3 v0 v1 v2).2.2 0 ((w : Int) - 1) ≠ [] :=
      fill_triangle_ne_nil hsorted.1 hsorted.2 harea
    unfold writtenPoints at hnil
    rw [hspans, List.flatten_eq_nil_iff] at hnil
    obtain ⟨s, hs⟩ := List.exists_mem_of_ne_nil _ hfill
    have hb := fill_triangle_mem_bounds (by omega : (0 : Int) ≤ (w : Int) - 1) hs
    exact spanPixels_ne_nil hb.2.1 (hnil _ (List.mem_map_of_mem _ hs))
  · intro hz
    unfold writtenPoints drawTriangleSpans
    dsimp only
    rw [if_neg (by simp [hfront]), if_pos hz]
    rfl

/-- Claim C9 (amended, witness): the theorem applied to the concrete
front-facing triangle (0,0), (4,0), (0,4) on a 5 × 5 framebuffer. -/
theorem triangle_discard_iff_witness :
    writtenPoints ⟨0, 0⟩ ⟨4, 0⟩ ⟨0, 4⟩ 5 5 = [] ↔
      (Rect.intersection (screen_rect 5 5)
        (triangle_bounds (sort3 ⟨0, 0⟩ ⟨4, 0⟩ ⟨0, 4⟩).1 (sort3 ⟨0, 0⟩ ⟨4, 0⟩ ⟨0, 4⟩).2.1
          (sort3 ⟨0, 0⟩ ⟨4, 0⟩ ⟨0, 4⟩).2.2)).is_zero_sized = true :=
  triangle_discard_iff ⟨0, 0⟩ ⟨4, 0⟩ ⟨0, 4⟩ 5 5 (by decide)

theorem runSpans_spec (dev : Batch → Bool) (c : Nat) (spans : List Span) :
    (∀ b ∈ (runSpans dev c spans).emitted, dev b = true) ∧
      ((runSpans dev c spans).res = Res.panickedUnwrap →
        ∃ bad rest, spans.map (fun s => spanBatch s c) =
          (runSpans dev c spans).emitted ++ bad :: rest ∧ dev bad = false) ∧
      ((runSpans dev c spans).res = Res.completed →
        (runSpans dev c spans).emitted = spans.map (fun s => spanBatch s c)) := by
  induction spans with
  | nil =>
    refine ⟨by simp [runSpans], by simp [runSpans], by simp [runSpans]⟩
  | cons s rest ih =>
    obtain ⟨ih1, ih2, ih3⟩ := ih
    by_cases hrow : (MAX_ROW_WIDTH : Int) < s.ex - s.sx + 1
    · have hrun : runSpans dev c (s :: rest) = ⟨[], Res.panickedRowIndex⟩ := by
        simp [runSpans, hrow]
      refine ⟨?_, ?_, ?_⟩ <;> rw [hrun]
      · intro b hb
        simp at hb
      · intro hres
        simp at hres
      · intro hres
        simp at hres
    · by_cases hdev : dev (spanBatch s c)
      · have hrun : runSpans dev c (s :: rest) =
            ⟨spanBatch s c :: (runSpans dev c rest).emitted, (runSpans dev c rest).res⟩ := by
          simp [runSpans, hrow, hdev]
        refine ⟨?_, ?_, ?_⟩ <;> rw [hrun]
        · intro b hb
          rcases List.mem_cons.mp hb with rfl | hb2
          · exact hdev
          · exact ih1 _ hb2
        · intro hres
          obtain ⟨bad, rest2, heq, hbad⟩ := ih2 hres
          exact ⟨bad, rest2, by simp [heq], hbad⟩
        · intro hres
          rw [List.map_cons, ih3 hres]
      · have hrun : runSpans dev c (s :: rest) = ⟨[], Res.panickedUnwrap⟩ := by
          simp [runSpans, hrow, hdev]
        refine ⟨?_, ?_, ?_⟩ <;> rw [hrun]
        · intro b hb
          simp at hb
        · intro _
          refine ⟨spanBatch s c, rest.map (fun s => spanBatch s c), by simp, ?_⟩
          exact Bool.not_eq_true _ ▸ (by simpa using hdev)
        · intro hres
          simp at hres

/-- Claim C5 (amended): a batch rejected by the framebuffer target makes the
draw call panic via the unwrap — draw returns no error value to its caller —
and the core never retries: for every primitive and device, every batch that
reaches the device was accepted except possibly the last attempted one, an
unwrap-panic outcome means the full batch sequence splits as the accepted
prefix followed by the first rejected batch (everything after it is never
attempted), and a completed outcome means every batch was submitted exactly
once in order. -/
theorem draw_rejection_panics_without_retry (dev : Batch → Bool) (w h : Nat)
    (prim : DrawPrimitive) :
    (∀ b ∈ (draw dev w h prim).emitted, dev b = true) ∧
      ((draw dev w h prim).res = Res.panickedUnwrap →
        ∃ bad rest, batchesOf w h prim = (draw dev w h prim).emitted ++ bad :: rest ∧
          dev bad = false) ∧
      ((draw dev w h prim).res = Res.completed →
        (draw dev w h prim).emitted = batchesOf w h prim) := by
  cases prim with
  | Line p1 p2 c =>
    by_cases hd : dev ((bresenham p1 p2).map (fun p => (p, c)))
    · refine ⟨?_, ?_, ?_⟩ <;> simp [draw, batchesOf, hd]
    · refine ⟨?_, ?_, ?_⟩ <;> simp [draw, batchesOf, hd]
  | ColoredPoint p c =>
    by_cases hd : dev [(p, c)]
    · refine ⟨?_, ?_, ?_⟩ <;> simp [draw, batchesOf, hd]
    · refine ⟨?_, ?_, ?_⟩ <;> simp [draw, batchesOf, hd]
  | ColoredTriangle v0 v1 v2 c =>
    exact runSpans_spec dev c (drawTriangleSpans v0 v1 v2 w h)

/-- Claim C5 (amended, witness): the theorem applied to an always-rejecting
device and a concrete ColoredPoint draw call, whose outcome is the unwrap
panic with the rejected batch identified and nothing emitted. -/
theorem draw_rejection_panics_without_retry_witness :
    (draw rejectAll 5 5 (DrawPrimitive.ColoredPoint ⟨2, 3⟩ 9)).res = Res.panickedUnwrap ∧
      ∃ bad rest,
        batchesOf 5 5 (DrawPrimitive.ColoredPoint ⟨2, 3⟩ 9) =
          (draw rejectAll 5 5 (DrawPrimitive.ColoredPoint ⟨2, 3⟩ 9)).emitted ++
            bad :: rest ∧ rejectAll bad = false :=
  ⟨by decide,
    (draw_rejection_panics_without_retry rejectAll 5 5
      (DrawPrimitive.ColoredPoint ⟨2, 3⟩ 9)).2.1 (by decide)⟩

/-- Claim C2 (amended, witness): the coverage direction of the amended
theorem applied at row 2, column 1. -/
theorem triangle_0440_04_pixels_witness :
    (0 : Int) ≤ 2 ∧ (2 : Int) ≤ 4 ∧ (0 : Int) ≤ 1 ∧ (1 : Int) ≤ max (3 - 2) 0 ∧
      (⟨1, 2⟩ : Pt) ∈ writtenPoints ⟨0, 0⟩ ⟨4, 0⟩ ⟨0, 4⟩ 5 5 :=
  ⟨by decide, by decide, by decide, by decide,
    triangle_0440_04_pixels.2.2.2 2 (by decide) (by decide) 1 (by decide) (by decide)⟩
